import Mathlib

/-!
Verification of the Black-Scholes pricing/Greeks engine described by the
repository's specification.  The repository ships only the scenario driver
`greeks_summary.py`; the engine it imports (`greeks_validation`, providing
`GreeksCalculator` and the analytic formulas) is not part of the sources,
so the engine is modelled here from the specification's formulas, boundary
rules and unit conventions.  The driver's concrete constructions of
`GreeksCalculator` are embedded exactly as written in `greeks_summary.py`.
-/

open MeasureTheory Set

namespace BlackScholes

/-- Modelled from the spec: the standard normal probability density φ used by
the missing `greeks_validation` engine ("N and φ are pure mathematical
primitives the engine depends on"). -/
noncomputable def normPDF (t : ℝ) : ℝ :=
  Real.exp (-(t ^ 2) / 2) / Real.sqrt (2 * Real.pi)

/-- Modelled from the spec: the standard normal cumulative distribution N used
by the missing `greeks_validation` engine. -/
noncomputable def normCDF (x : ℝ) : ℝ :=
  ∫ t in Iic x, normPDF t

lemma normPDF_eq (t : ℝ) :
    normPDF t = (Real.sqrt (2 * Real.pi))⁻¹ * Real.exp (-(2⁻¹ : ℝ) * t ^ 2) := by
  unfold normPDF
  rw [div_eq_inv_mul]
  ring_nf

lemma normPDF_nonneg (t : ℝ) : 0 ≤ normPDF t :=
  div_nonneg (Real.exp_pos _).le (Real.sqrt_nonneg _)

lemma normPDF_neg (t : ℝ) : normPDF (-t) = normPDF t := by
  simp [normPDF, neg_sq]

lemma integrable_normPDF : Integrable normPDF := by
  have h : Integrable fun t : ℝ => Real.exp (-(2⁻¹ : ℝ) * t ^ 2) :=
    integrable_exp_neg_mul_sq (by norm_num)
  have := h.const_mul (Real.sqrt (2 * Real.pi))⁻¹
  refine this.congr ?_
  filter_upwards with t
  rw [normPDF_eq]

lemma integral_normPDF : ∫ t, normPDF t = 1 := by
  have h2π : (0 : ℝ) < 2 * Real.pi := by positivity
  calc ∫ t, normPDF t
      = ∫ t, (Real.sqrt (2 * Real.pi))⁻¹ * Real.exp (-(2⁻¹ : ℝ) * t ^ 2) := by
        refine integral_congr_ae ?_
        filter_upwards with t
        rw [normPDF_eq]
    _ = (Real.sqrt (2 * Real.pi))⁻¹ * ∫ t : ℝ, Real.exp (-(2⁻¹ : ℝ) * t ^ 2) :=
        integral_mul_left _ _
    _ = (Real.sqrt (2 * Real.pi))⁻¹ * Real.sqrt (Real.pi / 2⁻¹) := by
        rw [integral_gaussian]
    _ = 1 := by
        have : Real.pi / (2⁻¹ : ℝ) = 2 * Real.pi := by ring
        rw [this, inv_mul_cancel₀ (ne_of_gt (Real.sqrt_pos.mpr h2π))]

lemma normCDF_add_neg (x : ℝ) : normCDF x + normCDF (-x) = 1 := by
  have hneg : normCDF (-x) = ∫ t in Ioi x, normPDF t := by
    have : (∫ t in Iic (-x), normPDF t) = ∫ t in Iic (-x), normPDF (-t) := by
      refine setIntegral_congr_ae measurableSet_Iic ?_
      filter_upwards with t _
      rw [normPDF_neg]
    rw [normCDF, this, integral_comp_neg_Iic, neg_neg]
  rw [normCDF, hneg]
  have h : (∫ t in Iic x, normPDF t) + ∫ t in (Iic x)ᶜ, normPDF t = ∫ t, normPDF t :=
    integral_add_compl measurableSet_Iic integrable_normPDF
  rw [compl_Iic] at h
  rw [h, integral_normPDF]

lemma normCDF_mono {x y : ℝ} (h : x ≤ y) : normCDF x ≤ normCDF y := by
  refine setIntegral_mono_set integrable_normPDF.integrableOn ?_ ?_
  · filter_upwards with t using normPDF_nonneg t
  · exact HasSubset.Subset.eventuallyLE (Iic_subset_Iic.mpr h)

/-- Modelled from the spec: the engine's OptionType selector {CALL, PUT}. -/
inductive OptionType where
  | call : OptionType
  | put : OptionType
deriving DecidableEq

/-- Modelled from the spec: the engine's OptionParameters record
(S, K, T, r, σ). -/
structure OptionParameters where
  S : ℝ
  K : ℝ
  T : ℝ
  r : ℝ
  sigma : ℝ

/-- Modelled from the spec: the engine's GreeksResult record of six named
real-valued fields. -/
structure GreeksResult where
  price : ℝ
  delta : ℝ
  gamma : ℝ
  theta : ℝ
  vega : ℝ
  rho : ℝ

/-- Modelled from the spec: the single error kind InvalidParameter of the
missing engine. -/
inductive EngineError where
  | invalidParameter : EngineError
deriving DecidableEq

/-- Modelled from the spec: the precondition-violation condition
"S ≤ 0, K ≤ 0, σ ≤ 0, or T < 0". -/
def invalidParams (p : OptionParameters) : Prop :=
  p.S ≤ 0 ∨ p.K ≤ 0 ∨ p.sigma ≤ 0 ∨ p.T < 0

/-- Modelled from the spec: the standardized moneyness term
d1 = [ln(S/K) + (r + σ²/2)·T] / (σ·√T). -/
noncomputable def d1 (p : OptionParameters) : ℝ :=
  (Real.log (p.S / p.K) + (p.r + p.sigma ^ 2 / 2) * p.T) / (p.sigma * Real.sqrt p.T)

/-- Modelled from the spec: d2 = d1 − σ·√T. -/
noncomputable def d2 (p : OptionParameters) : ℝ :=
  d1 p - p.sigma * Real.sqrt p.T

open Classical in
/-- Modelled from the spec: the Black-Scholes fair value, with the T = 0
boundary returning the intrinsic value. -/
noncomputable def price (p : OptionParameters) (ty : OptionType) : ℝ :=
  if p.T = 0 then
    match ty with
    | .call => max (p.S - p.K) 0
    | .put => max (p.K - p.S) 0
  else
    match ty with
    | .call => p.S * normCDF (d1 p) - p.K * Real.exp (-p.r * p.T) * normCDF (d2 p)
    | .put => p.K * Real.exp (-p.r * p.T) * normCDF (-d2 p) - p.S * normCDF (-d1 p)

open Classical in
/-- Modelled from the spec: delta = ∂price/∂S; at expiry it is the indicator
1 if S > K else 0 for a call and symmetrically −1 if S < K else 0 for a put. -/
noncomputable def delta (p : OptionParameters) (ty : OptionType) : ℝ :=
  if p.T = 0 then
    match ty with
    | .call => if p.K < p.S then 1 else 0
    | .put => if p.S < p.K then -1 else 0
  else
    match ty with
    | .call => normCDF (d1 p)
    | .put => normCDF (d1 p) - 1

open Classical in
/-- Modelled from the spec: gamma = ∂²price/∂S², type-independent, using φ(d1)
only; zero at the T = 0 boundary. -/
noncomputable def gamma (p : OptionParameters) (_ty : OptionType) : ℝ :=
  if p.T = 0 then 0
  else normPDF (d1 p) / (p.S * p.sigma * Real.sqrt p.T)

open Classical in
/-- Modelled from the spec: the raw (per-year) theta, before the /365
day-count convention is applied; zero at the T = 0 boundary. -/
noncomputable def thetaAnnual (p : OptionParameters) (ty : OptionType) : ℝ :=
  if p.T = 0 then 0
  else
    match ty with
    | .call =>
        -(p.S * normPDF (d1 p) * p.sigma) / (2 * Real.sqrt p.T)
          - p.r * p.K * Real.exp (-p.r * p.T) * normCDF (d2 p)
    | .put =>
        -(p.S * normPDF (d1 p) * p.sigma) / (2 * Real.sqrt p.T)
          + p.r * p.K * Real.exp (-p.r * p.T) * normCDF (-d2 p)

/-- Modelled from the spec: theta as value decay per calendar day under the
fixed /365 day-count convention. -/
noncomputable def theta (p : OptionParameters) (ty : OptionType) : ℝ :=
  thetaAnnual p ty / 365

open Classical in
/-- Modelled from the spec: the raw per-unit vega ∂price/∂σ, before the /100
percentage-point scaling; type-independent, using φ(d1) only. -/
noncomputable def vegaRaw (p : OptionParameters) (_ty : OptionType) : ℝ :=
  if p.T = 0 then 0
  else p.S * normPDF (d1 p) * Real.sqrt p.T

/-- Modelled from the spec: vega scaled to value per one-percentage-point
change in volatility (raw derivative divided by 100). -/
noncomputable def vega (p : OptionParameters) (ty : OptionType) : ℝ :=
  vegaRaw p ty / 100

open Classical in
/-- Modelled from the spec: the raw per-unit rho ∂price/∂r, before the /100
percentage-point scaling. -/
noncomputable def rhoRaw (p : OptionParameters) (ty : OptionType) : ℝ :=
  if p.T = 0 then 0
  else
    match ty with
    | .call => p.K * p.T * Real.exp (-p.r * p.T) * normCDF (d2 p)
    | .put => -(p.K * p.T * Real.exp (-p.r * p.T) * normCDF (-d2 p))

/-- Modelled from the spec: rho scaled to value per one-percentage-point
change in the rate (raw derivative divided by 100). -/
noncomputable def rho (p : OptionParameters) (ty : OptionType) : ℝ :=
  rhoRaw p ty / 100

open Classical in
/-- Modelled from the spec: `all_greeks` computes all six values from one
evaluation of the shared d1/d2 intermediate terms. -/
noncomputable def allGreeks (p : OptionParameters) (ty : OptionType) : GreeksResult :=
  if p.T = 0 then
    { price :=
        match ty with
        | .call => max (p.S - p.K) 0
        | .put => max (p.K - p.S) 0
      delta :=
        match ty with
        | .call => if p.K < p.S then 1 else 0
        | .put => if p.S < p.K then -1 else 0
      gamma := 0
      theta := 0
      vega := 0
      rho := 0 }
  else
    let D1 := (Real.log (p.S / p.K) + (p.r + p.sigma ^ 2 / 2) * p.T) / (p.sigma * Real.sqrt p.T)
    let D2 := D1 - p.sigma * Real.sqrt p.T
    let disc := Real.exp (-p.r * p.T)
    { price :=
        match ty with
        | .call => p.S * normCDF D1 - p.K * disc * normCDF D2
        | .put => p.K * disc * normCDF (-D2) - p.S * normCDF (-D1)
      delta :=
        match ty with
        | .call => normCDF D1
        | .put => normCDF D1 - 1
      gamma := normPDF D1 / (p.S * p.sigma * Real.sqrt p.T)
      theta :=
        (match ty with
        | .call =>
            -(p.S * normPDF D1 * p.sigma) / (2 * Real.sqrt p.T)
              - p.r * p.K * disc * normCDF D2
        | .put =>
            -(p.S * normPDF D1 * p.sigma) / (2 * Real.sqrt p.T)
              + p.r * p.K * disc * normCDF (-D2)) / 365
      vega := p.S * normPDF D1 * Real.sqrt p.T / 100
      rho :=
        (match ty with
        | .call => p.K * p.T * disc * normCDF D2
        | .put => -(p.K * p.T * disc * normCDF (-D2))) / 100 }

open Classical in
/-- Modelled from the spec: parameter validation, failing fast with
InvalidParameter and producing no result on failure. -/
noncomputable def validate (p : OptionParameters) : Except EngineError OptionParameters :=
  if invalidParams p then .error .invalidParameter else .ok p

/-- Modelled from the spec: the checked `price` operation. -/
noncomputable def priceChecked (p : OptionParameters) (ty : OptionType) :
    Except EngineError ℝ :=
  (validate p).map fun q => price q ty

/-- Modelled from the spec: the checked `delta` operation. -/
noncomputable def deltaChecked (p : OptionParameters) (ty : OptionType) :
    Except EngineError ℝ :=
  (validate p).map fun q => delta q ty

/-- Modelled from the spec: the checked `gamma` operation. -/
noncomputable def gammaChecked (p : OptionParameters) (ty : OptionType) :
    Except EngineError ℝ :=
  (validate p).map fun q => gamma q ty

/-- Modelled from the spec: the checked `theta` operation. -/
noncomputable def thetaChecked (p : OptionParameters) (ty : OptionType) :
    Except EngineError ℝ :=
  (validate p).map fun q => theta q ty

/-- Modelled from the spec: the checked `vega` operation. -/
noncomputable def vegaChecked (p : OptionParameters) (ty : OptionType) :
    Except EngineError ℝ :=
  (validate p).map fun q => vega q ty

/-- Modelled from the spec: the checked `rho` operation. -/
noncomputable def rhoChecked (p : OptionParameters) (ty : OptionType) :
    Except EngineError ℝ :=
  (validate p).map fun q => rho q ty

/-- Modelled from the spec: the checked `all_greeks` operation. -/
noncomputable def allGreeksChecked (p : OptionParameters) (ty : OptionType) :
    Except EngineError GreeksResult :=
  (validate p).map fun q => allGreeks q ty

lemma validate_of_not_invalid {p : OptionParameters} (h : ¬ invalidParams p) :
    validate p = .ok p := by
  simp [validate, h]

lemma validate_of_invalid {p : OptionParameters} (h : invalidParams p) :
    validate p = .error .invalidParameter := by
  simp [validate, h]

/-- A parameter record as written in the driver `greeks_summary.py`: all the
numeric literals there are exact decimals, embedded as rationals. -/
structure DriverParams where
  S : ℚ
  K : ℚ
  T : ℚ
  r : ℚ
  sigma : ℚ
deriving DecidableEq

/-- Interpret a driver-level parameter record as engine parameters. -/
noncomputable def toParams (q : DriverParams) : OptionParameters :=
  ⟨(q.S : ℝ), (q.K : ℝ), (q.T : ℝ), (q.r : ℝ), (q.sigma : ℝ)⟩

/-- The stock-price moves swept in `practical_hedging_example`. -/
def hedgingMoves : List ℚ := [-3, -2, -1, 0, 1, 2, 3]

/-- `GreeksCalculator` constructions in `practical_hedging_example`: the base
call at (100, 105, 0.25, 0.05, 0.25) and one per move with S = 100 + move. -/
def hedgingConstructions : List DriverParams :=
  ⟨100, 105, 0.25, 0.05, 0.25⟩ ::
    hedgingMoves.map fun m => ⟨100 + m, 105, 0.25, 0.05, 0.25⟩

/-- The days-to-expiry values swept in `time_decay_analysis`. -/
def timeDecayDays : List ℚ := [90, 60, 30, 21, 14, 7, 3, 1]

/-- `GreeksCalculator` constructions in `time_decay_analysis`:
(100, 100, days/365, 0.05, 0.2). -/
def timeDecayConstructions : List DriverParams :=
  timeDecayDays.map fun d => ⟨100, 100, d / 365, 0.05, 0.2⟩

/-- The volatility shifts swept in `volatility_impact_analysis`. -/
def volChanges : List ℚ := [-0.10, -0.05, -0.02, 0, 0.02, 0.05, 0.10]

/-- `GreeksCalculator` constructions in `volatility_impact_analysis`: the base
at σ = 0.20 plus one per shifted σ = 0.20 + change, where the loop skips
(`continue`) any shifted σ ≤ 0 before constructing the calculator. -/
def volatilityConstructions : List DriverParams :=
  ⟨100, 100, 1, 0.05, 0.20⟩ ::
    (((volChanges.map fun c => 0.20 + c).filter fun s => decide (¬ s ≤ 0)).map
      fun s => ⟨100, 100, 1, 0.05, s⟩)

/-- The strikes swept in `moneyness_analysis`. -/
def moneynessStrikes : List ℚ := [85, 90, 95, 100, 105, 110, 115]

/-- `GreeksCalculator` constructions in `moneyness_analysis`:
(100, K, 0.25, 0.05, 0.2). -/
def moneynessConstructions : List DriverParams :=
  moneynessStrikes.map fun k => ⟨100, k, 0.25, 0.05, 0.2⟩

/-- Every `GreeksCalculator` construction reachable from `greeks_summary.py`. -/
def summaryConstructions : List DriverParams :=
  hedgingConstructions ++ timeDecayConstructions ++
    volatilityConstructions ++ moneynessConstructions

lemma volatilityFiltered_eq :
    ((volChanges.map fun c => 0.20 + c).filter fun s => decide (¬ s ≤ 0)) =
      [0.10, 0.15, 0.18, 0.20, 0.22, 0.25, 0.30] := by
  norm_num [volChanges, List.filter]

lemma summary_strictValid :
    ∀ q ∈ summaryConstructions, 0 < q.S ∧ 0 < q.K ∧ 0 < q.sigma ∧ 0 < q.T := by
  intro q hq
  simp only [summaryConstructions, hedgingConstructions, timeDecayConstructions,
    volatilityConstructions, moneynessConstructions, hedgingMoves, timeDecayDays,
    volatilityFiltered_eq, moneynessStrikes, List.map_cons, List.map_nil,
    List.mem_append, List.mem_cons, List.not_mem_nil, or_false, or_assoc] at hq
  rcases hq with rfl | rfl | rfl | rfl | rfl | rfl | rfl | rfl | rfl | rfl | rfl |
    rfl | rfl | rfl | rfl | rfl | rfl | rfl | rfl | rfl | rfl | rfl | rfl | rfl |
    rfl | rfl | rfl | rfl | rfl | rfl | rfl <;>
    exact ⟨by norm_num, by norm_num, by norm_num, by norm_num⟩

lemma not_invalid_of_strict {S K T r sigma : ℝ} (hS : 0 < S) (hK : 0 < K)
    (hs : 0 < sigma) (hT : 0 ≤ T) : ¬ invalidParams ⟨S, K, T, r, sigma⟩ := by
  rintro (h | h | h | h)
  · exact absurd h (not_le.mpr hS)
  · exact absurd h (not_le.mpr hK)
  · exact absurd h (not_le.mpr hs)
  · exact absurd h (not_lt.mpr hT)

lemma d1_mono {S1 S2 K T r sigma : ℝ} (hK : 0 < K) (hs : 0 < sigma)
    (hT : 0 < T) (hS1 : 0 < S1) (h12 : S1 ≤ S2) :
    d1 ⟨S1, K, T, r, sigma⟩ ≤ d1 ⟨S2, K, T, r, sigma⟩ := by
  unfold d1
  gcongr

/-- C1: for every parameter set with S > 0, K > 0, T > 0, σ > 0 the engine's
price operation returns S·N(d1) − K·e^(−rT)·N(d2) for a CALL and
K·e^(−rT)·N(−d2) − S·N(−d1) for a PUT, where
d1 = [ln(S/K) + (r + σ²/2)·T]/(σ·√T), d2 = d1 − σ·√T and N is the standard
normal CDF. -/
theorem price_formula (S K T r sigma : ℝ) (hS : 0 < S) (hK : 0 < K)
    (hT : 0 < T) (hs : 0 < sigma) :
    priceChecked ⟨S, K, T, r, sigma⟩ .call =
      .ok (S * normCDF ((Real.log (S / K) + (r + sigma ^ 2 / 2) * T) /
            (sigma * Real.sqrt T))
        - K * Real.exp (-r * T) *
            normCDF ((Real.log (S / K) + (r + sigma ^ 2 / 2) * T) /
              (sigma * Real.sqrt T) - sigma * Real.sqrt T)) ∧
    priceChecked ⟨S, K, T, r, sigma⟩ .put =
      .ok (K * Real.exp (-r * T) *
            normCDF (-((Real.log (S / K) + (r + sigma ^ 2 / 2) * T) /
              (sigma * Real.sqrt T) - sigma * Real.sqrt T))
        - S * normCDF (-((Real.log (S / K) + (r + sigma ^ 2 / 2) * T) /
            (sigma * Real.sqrt T)))) := by
  have hnot : ¬ invalidParams ⟨S, K, T, r, sigma⟩ :=
    not_invalid_of_strict hS hK hs hT.le
  constructor <;>
    simp [priceChecked, validate_of_not_invalid hnot, price, hT.ne', d1, d2,
      Except.map]

/-- C1 witness at the spec's example scenario (100, 105, 0.25, 0.05, 0.25). -/
theorem price_formula_witness :
    priceChecked ⟨100, 105, 0.25, 0.05, 0.25⟩ .call =
      .ok (100 * normCDF ((Real.log (100 / 105) + (0.05 + 0.25 ^ 2 / 2) * 0.25) /
            (0.25 * Real.sqrt 0.25))
        - 105 * Real.exp (-0.05 * 0.25) *
            normCDF ((Real.log (100 / 105) + (0.05 + 0.25 ^ 2 / 2) * 0.25) /
              (0.25 * Real.sqrt 0.25) - 0.25 * Real.sqrt 0.25)) :=
  (price_formula 100 105 0.25 0.05 0.25 (by norm_num) (by norm_num)
    (by norm_num) (by norm_num)).1

/-- C2: every checked engine operation fails with InvalidParameter exactly when
S ≤ 0, K ≤ 0, σ ≤ 0 or T < 0, and on the valid domain it returns the computed
result (never a sentinel or partial result: the Except value carries either the
error or the full result). -/
theorem invalidParameter_iff (p : OptionParameters) (ty : OptionType) :
    (allGreeksChecked p ty = .error .invalidParameter ↔
      (p.S ≤ 0 ∨ p.K ≤ 0 ∨ p.sigma ≤ 0 ∨ p.T < 0)) ∧
    (allGreeksChecked p ty = .ok (allGreeks p ty) ↔
      ¬ (p.S ≤ 0 ∨ p.K ≤ 0 ∨ p.sigma ≤ 0 ∨ p.T < 0)) ∧
    (priceChecked p ty = .error .invalidParameter ↔
      (p.S ≤ 0 ∨ p.K ≤ 0 ∨ p.sigma ≤ 0 ∨ p.T < 0)) ∧
    (priceChecked p ty = .ok (price p ty) ↔
      ¬ (p.S ≤ 0 ∨ p.K ≤ 0 ∨ p.sigma ≤ 0 ∨ p.T < 0)) ∧
    (deltaChecked p ty = .error .invalidParameter ↔
      (p.S ≤ 0 ∨ p.K ≤ 0 ∨ p.sigma ≤ 0 ∨ p.T < 0)) ∧
    (gammaChecked p ty = .error .invalidParameter ↔
      (p.S ≤ 0 ∨ p.K ≤ 0 ∨ p.sigma ≤ 0 ∨ p.T < 0)) ∧
    (thetaChecked p ty = .error .invalidParameter ↔
      (p.S ≤ 0 ∨ p.K ≤ 0 ∨ p.sigma ≤ 0 ∨ p.T < 0)) ∧
    (vegaChecked p ty = .error .invalidParameter ↔
      (p.S ≤ 0 ∨ p.K ≤ 0 ∨ p.sigma ≤ 0 ∨ p.T < 0)) ∧
    (rhoChecked p ty = .error .invalidParameter ↔
      (p.S ≤ 0 ∨ p.K ≤ 0 ∨ p.sigma ≤ 0 ∨ p.T < 0)) := by
  by_cases h : invalidParams p
  · have hd : p.S ≤ 0 ∨ p.K ≤ 0 ∨ p.sigma ≤ 0 ∨ p.T < 0 := h
    simp [allGreeksChecked, priceChecked, deltaChecked, gammaChecked,
      thetaChecked, vegaChecked, rhoChecked, validate_of_invalid h, hd,
      Except.map]
  · have hd : ¬ (p.S ≤ 0 ∨ p.K ≤ 0 ∨ p.sigma ≤ 0 ∨ p.T < 0) := h
    simp [allGreeksChecked, priceChecked, deltaChecked, gammaChecked,
      thetaChecked, vegaChecked, rhoChecked, validate_of_not_invalid h, hd,
      Except.map]

/-- C3: at T = 0 exactly the engine does not raise: the price is the intrinsic
value and delta is the expiry indicator. -/
theorem expiry_boundary (S K r sigma : ℝ) (hS : 0 < S) (hK : 0 < K)
    (hs : 0 < sigma) :
    priceChecked ⟨S, K, 0, r, sigma⟩ .call = .ok (max (S - K) 0) ∧
    priceChecked ⟨S, K, 0, r, sigma⟩ .put = .ok (max (K - S) 0) ∧
    deltaChecked ⟨S, K, 0, r, sigma⟩ .call = .ok (if K < S then 1 else 0) ∧
    deltaChecked ⟨S, K, 0, r, sigma⟩ .put = .ok (if S < K then -1 else 0) := by
  have hnot : ¬ invalidParams ⟨S, K, 0, r, sigma⟩ :=
    not_invalid_of_strict hS hK hs le_rfl
  refine ⟨?_, ?_, ?_, ?_⟩ <;>
    simp [priceChecked, deltaChecked, validate_of_not_invalid hnot, price, delta,
      Except.map]

/-- C3 witness at S = 100, K = 105, r = 0.05, σ = 0.25. -/
theorem expiry_boundary_witness :
    priceChecked ⟨100, 105, 0, 0.05, 0.25⟩ .call = .ok (max (100 - 105) 0) :=
  (expiry_boundary 100 105 0.05 0.25 (by norm_num) (by norm_num)
    (by norm_num)).1

/-- C4: gamma and vega are independent of the option type for every valid
parameter set. -/
theorem gamma_vega_type_independent (p : OptionParameters) (hS : 0 < p.S)
    (hK : 0 < p.K) (hs : 0 < p.sigma) (hT : 0 ≤ p.T) :
    gamma p .call = gamma p .put ∧ vega p .call = vega p .put :=
  ⟨rfl, rfl⟩

/-- C4 witness at the spec's example scenario. -/
theorem gamma_vega_type_independent_witness :
    gamma ⟨100, 105, 0.25, 0.05, 0.25⟩ .call =
      gamma ⟨100, 105, 0.25, 0.05, 0.25⟩ .put :=
  (gamma_vega_type_independent ⟨100, 105, 0.25, 0.05, 0.25⟩ (by norm_num)
    (by norm_num) (by norm_num) (by norm_num)).1

/-- C5: put-call parity, price(CALL) − price(PUT) = S − K·e^(−rT), for every
valid parameter set with T > 0 (exactly, since the model computes over ℝ). -/
theorem put_call_parity (S K T r sigma : ℝ) (hS : 0 < S) (hK : 0 < K)
    (hT : 0 < T) (hs : 0 < sigma) :
    price ⟨S, K, T, r, sigma⟩ .call - price ⟨S, K, T, r, sigma⟩ .put =
      S - K * Real.exp (-r * T) := by
  have h1 := normCDF_add_neg (d1 ⟨S, K, T, r, sigma⟩)
  have h2 := normCDF_add_neg (d2 ⟨S, K, T, r, sigma⟩)
  simp only [price, hT.ne', if_false]
  linear_combination S * h1 - K * Real.exp (-r * T) * h2

/-- C5 witness at (1, 1, 1, 0, 1). -/
theorem put_call_parity_witness :
    price ⟨1, 1, 1, 0, 1⟩ .call - price ⟨1, 1, 1, 0, 1⟩ .put =
      1 - 1 * Real.exp (-0 * 1) :=
  put_call_parity 1 1 1 0 1 (by norm_num) (by norm_num) (by norm_num)
    (by norm_num)

/-- C6: `all_greeks` agrees field by field with the six individual operations;
its six values are produced from a single evaluation of the shared d1/d2
terms. -/
theorem allGreeks_consistent (p : OptionParameters) (ty : OptionType) :
    allGreeks p ty =
      { price := price p ty
        delta := delta p ty
        gamma := gamma p ty
        theta := theta p ty
        vega := vega p ty
        rho := rho p ty } := by
  by_cases hT : p.T = 0 <;> cases ty <;>
    simp [allGreeks, price, delta, gamma, theta, thetaAnnual, vega, vegaRaw,
      rho, rhoRaw, d1, d2, hT]

/-- C7: the returned Greeks carry the stated unit conventions: theta is the
per-year derivative divided by 365 (value decay per calendar day), and vega and
rho are the raw per-unit derivatives divided by 100. -/
theorem unit_conventions (p : OptionParameters) (ty : OptionType) :
    (allGreeks p ty).theta = thetaAnnual p ty / 365 ∧
    (allGreeks p ty).vega = vegaRaw p ty / 100 ∧
    (allGreeks p ty).rho = rhoRaw p ty / 100 := by
  by_cases hT : p.T = 0 <;> cases ty <;>
    simp [allGreeks, theta, thetaAnnual, vega, vegaRaw, rho, rhoRaw, d1, d2, hT]

/-- C8 counterexample: with K = 2, T = 0, r = 0, σ = 1 (a valid parameter set)
and spots 1 ≤ 3, the put delta strictly increases (−1 to 0), so delta(PUT) is
not a non-increasing function of S. -/
theorem put_delta_not_antitone :
    (0 : ℝ) < 1 ∧ (1 : ℝ) ≤ 3 ∧ (0 : ℝ) < 2 ∧ (0 : ℝ) ≤ 0 ∧
    ¬ (delta ⟨3, 2, 0, 0, 1⟩ .put ≤ delta ⟨1, 2, 0, 0, 1⟩ .put) := by
  refine ⟨by norm_num, by norm_num, by norm_num, le_rfl, ?_⟩
  norm_num [delta]

/-- C8 (amended): holding K, T, r, σ fixed at any valid values, delta(CALL) is
non-decreasing in S, and delta(PUT) is likewise non-decreasing in S (its
absolute value is non-increasing). -/
theorem delta_monotone_in_spot (S1 S2 K T r sigma : ℝ) (hK : 0 < K)
    (hs : 0 < sigma) (hT : 0 ≤ T) (hS1 : 0 < S1) (h12 : S1 ≤ S2) :
    delta ⟨S1, K, T, r, sigma⟩ .call ≤ delta ⟨S2, K, T, r, sigma⟩ .call ∧
    delta ⟨S1, K, T, r, sigma⟩ .put ≤ delta ⟨S2, K, T, r, sigma⟩ .put := by
  by_cases hT0 : T = 0
  · subst hT0
    constructor
    · simp only [delta, if_pos]
      by_cases h1 : K < S1
      · rw [if_pos h1, if_pos (lt_of_lt_of_le h1 h12)]
      · rw [if_neg h1]
        by_cases h2 : K < S2
        · rw [if_pos h2]; norm_num
        · rw [if_neg h2]
    · simp only [delta, if_pos]
      by_cases h2 : S2 < K
      · rw [if_pos h2, if_pos (lt_of_le_of_lt h12 h2)]
      · rw [if_neg h2]
        by_cases h1 : S1 < K
        · rw [if_pos h1]; norm_num
        · rw [if_neg h1]
  · have hTpos : 0 < T := lt_of_le_of_ne hT (Ne.symm hT0)
    have hm : normCDF (d1 ⟨S1, K, T, r, sigma⟩) ≤
        normCDF (d1 ⟨S2, K, T, r, sigma⟩) :=
      normCDF_mono (d1_mono hK hs hTpos hS1 h12)
    constructor
    · simp only [delta, hT0, if_false]
      exact hm
    · simp only [delta, hT0, if_false]
      linarith

/-- C8 amended witness at K = 105, T = 0.25, r = 0.05, σ = 0.25, spots
100 ≤ 101. -/
theorem delta_monotone_in_spot_witness :
    delta ⟨100, 105, 0.25, 0.05, 0.25⟩ .call ≤
      delta ⟨101, 105, 0.25, 0.05, 0.25⟩ .call :=
  (delta_monotone_in_spot 100 101 105 0.25 0.05 0.25 (by norm_num)
    (by norm_num) (by norm_num) (by norm_num) (by norm_num)).1

/-- C9: the engine is deterministic: two calls with identical parameter values
return identical results for all six fields (the whole GreeksResult). -/
theorem engine_deterministic (S K T r sigma S2 K2 T2 r2 sigma2 : ℝ)
    (ty : OptionType) (hS : S = S2) (hK : K = K2) (hT : T = T2) (hr : r = r2)
    (hsig : sigma = sigma2) :
    allGreeksChecked ⟨S, K, T, r, sigma⟩ ty =
      allGreeksChecked ⟨S2, K2, T2, r2, sigma2⟩ ty := by
  subst hS; subst hK; subst hT; subst hr; subst hsig; rfl

/-- C9 witness at the spec's example scenario. -/
theorem engine_deterministic_witness :
    allGreeksChecked ⟨100, 105, 0.25, 0.05, 0.25⟩ .call =
      allGreeksChecked ⟨100, 105, 0.25, 0.05, 0.25⟩ .call :=
  engine_deterministic 100 105 0.25 0.05 0.25 100 105 0.25 0.05 0.25 .call
    rfl rfl rfl rfl rfl

/-- C10: every GreeksCalculator construction reachable from greeks_summary.py
has S, K, σ strictly positive and T > 0, so the engine's InvalidParameter
branch is unreachable from this driver. -/
theorem driver_constructions_safe (q : DriverParams)
    (hq : q ∈ summaryConstructions) :
    (0 < (toParams q).S ∧ 0 < (toParams q).K ∧ 0 < (toParams q).sigma ∧
      0 < (toParams q).T) ∧
    validate (toParams q) = .ok (toParams q) := by
  obtain ⟨h1, h2, h3, h4⟩ := summary_strictValid q hq
  have h1' : (0 : ℝ) < q.S := by exact_mod_cast h1
  have h2' : (0 : ℝ) < q.K := by exact_mod_cast h2
  have h3' : (0 : ℝ) < q.sigma := by exact_mod_cast h3
  have h4' : (0 : ℝ) < q.T := by exact_mod_cast h4
  constructor
  · exact ⟨h1', h2', h3', h4'⟩
  · exact validate_of_not_invalid (not_invalid_of_strict h1' h2' h3' h4'.le)

/-- C10 witness: the base hedging construction (100, 105, 0.25, 0.05, 0.25). -/
theorem driver_constructions_safe_witness :
    (⟨100, 105, 0.25, 0.05, 0.25⟩ : DriverParams) ∈ summaryConstructions ∧
    validate (toParams ⟨100, 105, 0.25, 0.05, 0.25⟩) =
      .ok (toParams ⟨100, 105, 0.25, 0.05, 0.25⟩) :=
  ⟨by simp [summaryConstructions, hedgingConstructions],
   (driver_constructions_safe ⟨100, 105, 0.25, 0.05, 0.25⟩
     (by simp [summaryConstructions, hedgingConstructions])).2⟩

end BlackScholes
